import Mathlib

/-!
Verification development for the typutil dynamic value-conversion engine.

This file gives a shallow embedding, in Lean 4, of the conversion engine of
the typutil Go library (assign.go, anyconv.go, basetype.go, validator.go):

* Go runtime types are modelled by the inductive `Ty`; struct types are
  referenced by name through an environment `Env` so that self-referential
  (cyclic) type graphs are expressible, as they are in Go.
* Go runtime values are modelled by the inductive `Value`; machine integers
  carry their width tag and an unbounded integer, with two's-complement
  wrapping made explicit where the Go code truncates (`reflect.Value.SetInt`
  and `SetUint`).  Go float64 values are modelled by rationals; the only
  float operation the embedded code performs is `math.Round`
  (round half away from zero) followed by an exactness check, which is exact
  on the rationals for every value in the int64 range.
* The conversion procedures built by `newAssignFunc` are defunctionalized
  into the inductive `Plan`, with one constructor per closure shape the Go
  source creates; synthesis (`newAssignFuncF` / `getAssignFuncF`) and
  execution (`execF`) are fueled functions, `none` meaning the fuel ran out
  (so `∀ fuel, … = none` states that the Go code never terminates on that
  input).  The process-wide `assignFuncCache` is threaded explicitly as an
  association list, and the placeholder published by `getAssignFunc` before
  synthesis is the `Plan.delegate` constructor.
* Validator functions are arbitrary user code, so the registry is a
  parameter mapping names to opaque functions `String → Value → Option Err`
  (the extra tag argument and the conversion performed by
  `validatorObject.runReflectValue` are folded into the opaque function;
  pointer-argument validators, which may mutate the field, are outside the
  claims checked here).
-/

/-- Signed integer kinds of Go (int, int8 … int64), as dispatched on by
`reflect.Kind` in `newAssignFunc` and `makeAssignToInt`. -/
inductive IntW where
  | i | i8 | i16 | i32 | i64
deriving DecidableEq, Repr

/-- Unsigned integer kinds of Go (uint, uint8 … uint64, uintptr). -/
inductive UintW where
  | u | u8 | u16 | u32 | u64 | uptr
deriving DecidableEq, Repr

/-- Float kinds of Go (float32, float64). -/
inductive FloatW where
  | f32 | f64
deriving DecidableEq, Repr

/-- Bit width of a signed kind (Go on a 64-bit platform: int is 64 bits). -/
def IntW.bits : IntW → ℕ
  | .i => 64
  | .i8 => 8
  | .i16 => 16
  | .i32 => 32
  | .i64 => 64

/-- Bit width of an unsigned kind (64-bit platform). -/
def UintW.bits : UintW → ℕ
  | .u => 64
  | .u8 => 8
  | .u16 => 16
  | .u32 => 32
  | .u64 => 64
  | .uptr => 64

/-- Go runtime types, the domain of `reflect.Type` as used by the engine.
Struct types are referenced by name via an `Env`, which makes cyclic type
graphs (a struct holding a pointer to itself) representable exactly as in
Go.  `iface` is the empty interface type `any`. -/
inductive Ty where
  | str
  | boolT
  | int (w : IntW)
  | uint (w : UintW)
  | float (w : FloatW)
  | slice (elem : Ty)
  | mapT (key val : Ty)
  | structT (name : String)
  | ptr (t : Ty)
  | iface
deriving DecidableEq, Repr

/-- One struct field as seen by reflection: declared name, the value of its
`json` tag and of its `validator` tag (empty string when the tag is absent),
whether the field is exported, and its type. -/
structure FieldDef where
  name : String
  jsonTag : String
  validatorTag : String
  exported : Bool
  ty : Ty
deriving DecidableEq, Repr

/-- The table of named struct types of the program: the part of Go's static
type information the engine reads through reflection. -/
abbrev Env := List (String × List FieldDef)

/-- Field list of a named struct type (empty if unknown). -/
def Env.fieldsOf (env : Env) (n : String) : List FieldDef :=
  match env.find? (fun e => e.1 = n) with
  | some e => e.2
  | none => []

/-- Go runtime values.  A slice value records its element type (so the
byte-slice special cases of the engine can test it), a map value its key and
value types, a pointer its pointee type and optional pointee (`none` = nil).
`nilV` is the nil interface content, which reflection reports as an invalid
`reflect.Value`. -/
inductive Value where
  | str (s : String)
  | bool (b : Bool)
  | int (w : IntW) (n : ℤ)
  | uint (w : UintW) (n : ℕ)
  | float (w : FloatW) (q : ℚ)
  | slice (elem : Ty) (xs : List Value)
  | mapV (k v : Ty) (entries : List (Value × Value))
  | structV (name : String) (fields : List Value)
  | ptr (t : Ty) (v : Option Value)
  | nilV

/-- The dynamic type of a value, as `reflect.Value.Type` reports it.
`nilV` has no type (reflection reports an invalid value); we return `iface`
for totality, and every use site guards the nil case separately. -/
def Value.tyOf : Value → Ty
  | .str _ => .str
  | .bool _ => .boolT
  | .int w _ => .int w
  | .uint w _ => .uint w
  | .float w _ => .float w
  | .slice e _ => .slice e
  | .mapV k v _ => .mapT k v
  | .structV n _ => .structT n
  | .ptr t _ => .ptr t
  | .nilV => .iface

/-- Field access `val.Field(i)` on a struct value (out of range yields a Go
panic; the engine only indexes fields recorded at synthesis time, so we
return `nilV` for totality). -/
def Value.fieldN : Value → ℕ → Value
  | .structV _ fs, i => fs.getD i .nilV
  | _, _ => .nilV

/-- Errors of the engine.  Each constructor mirrors one error the Go source
produces (`errors.go` sentinels and the `fmt.Errorf` sites of `assign.go`
and `validator.go`);  `onField` is the wrapping
`fmt.Errorf("on field %s: %w", …)` of `structValidator.validate`;
`custom` stands for errors returned by user validator functions; `panik`
models a Go runtime panic (notably `reflect.Value.Set` called with a value
not assignable to the destination type); `assignCtx` is the context
wrapping added by `AssignReflect`. -/
inductive Err where
  | assignDestNotPointer
  | impossibleConv (src dst : Ty)
  | sliceSrcInvalid (src : Ty)
  | bytesUnsupported (src : Ty)
  | mapSrcUnsupported (src : Ty)
  | mapKeyNotString
  | mapToStructSrcInvalid (src : Ty)
  | nilPointerRead
  | invalidSource
  | destNotAddressable
  | cannotConvert (target : String) (src : Ty)
  | base64Corrupt
  | onField (name : String) (e : Err)
  | custom (tag : String)
  | panik (msg : String)
  | assignCtx (src dst : Ty) (e : Err)
deriving DecidableEq, Repr

mutual

/-- Boolean equality of values, used to model Go `==` on map keys when
`SetMapIndex` overwrites an existing entry.  (Go panics on non-comparable
keys such as slices; key types in this development are comparable.) -/
def Value.beq : Value → Value → Bool
  | .str a, .str b => a == b
  | .bool a, .bool b => a == b
  | .int w a, .int w' b => w == w' && a == b
  | .uint w a, .uint w' b => w == w' && a == b
  | .float w a, .float w' b => w == w' && a == b
  | .slice e xs, .slice e' ys => e == e' && Value.beqList xs ys
  | .mapV k v es, .mapV k' v' es' => k == k' && v == v' && Value.beqPairs es es'
  | .structV n fs, .structV n' fs' => n == n' && Value.beqList fs fs'
  | .ptr t (some x), .ptr t' (some y) => t == t' && Value.beq x y
  | .ptr t none, .ptr t' none => t == t'
  | .nilV, .nilV => true
  | _, _ => false

/-- Pointwise `Value.beq` on lists. -/
def Value.beqList : List Value → List Value → Bool
  | [], [] => true
  | x :: xs, y :: ys => Value.beq x y && Value.beqList xs ys
  | _, _ => false

/-- Pointwise `Value.beq` on entry lists. -/
def Value.beqPairs : List (Value × Value) → List (Value × Value) → Bool
  | [], [] => true
  | (k, v) :: xs, (k', v') :: ys =>
      Value.beq k k' && Value.beq v v' && Value.beqPairs xs ys
  | _, _ => false

end

/-- Two's-complement truncation of an integer to a signed width, the effect
of `reflect.Value.SetInt` on a narrower destination. -/
def wrapSigned (w : IntW) (x : ℤ) : ℤ :=
  (x + 2 ^ (w.bits - 1)) % 2 ^ w.bits - 2 ^ (w.bits - 1)

/-- Truncation of a natural to an unsigned width, the effect of
`reflect.Value.SetUint`. -/
def wrapUnsigned (w : UintW) (x : ℕ) : ℕ :=
  x % 2 ^ w.bits

/-- Reinterpretation of a uint64 bit pattern as int64, the Go conversion
`int64(n)` applied by `AsInt` to a uint64 with the top bit set. -/
def toSigned64 (n : ℕ) : ℤ :=
  (n : ℤ) - if n < 2 ^ 63 then 0 else 2 ^ 64

/-- Reinterpretation of an integer as a uint64 bit pattern, the Go
conversion `uint64(n)` applied by `AsUint` to signed input. -/
def toUnsigned64 (x : ℤ) : ℕ :=
  (x % 2 ^ 64).toNat

/-- Extract the byte values of a `[]byte` slice value (`reflect.Value.Bytes`).
Returns `none` when an element is not a uint8, which cannot happen for
well-typed byte slices. -/
def bytesOfList : List Value → Option (List ℕ)
  | [] => some []
  | .uint .u8 n :: xs =>
      match bytesOfList xs with
      | some bs => some (n :: bs)
      | none => none
  | _ => none

/-- Go `string(bs)` on a byte sequence (claims only involve ASCII data, for
which Lean chars and Go bytes agree). -/
def stringOfBytes (bs : List ℕ) : String :=
  String.mk (bs.map Char.ofNat)

/-- `⌊q + 1/2⌋` computed on the numerator and denominator (Euclidean
division by a positive denominator is floor division), so that it reduces
definitionally on closed rationals. -/
def ratFloorPlusHalf (q : ℚ) : ℤ :=
  (2 * q.num + q.den) / (2 * (q.den : ℤ))

/-- `math.Round`: round half away from zero, on the rational model of
float64.  Exact for every input the embedded code feeds it. -/
def goRound (q : ℚ) : ℤ :=
  if 0 ≤ q then ratFloorPlusHalf q else -ratFloorPlusHalf (-q)

/-- Split a character list at every occurrence of a separator character
(`strings.Split` for a one-character separator). -/
def splitOnChar (sep : Char) : List Char → List (List Char)
  | [] => [[]]
  | c :: rest =>
      let r := splitOnChar sep rest
      if c = sep then [] :: r
      else (c :: r.headD []) :: r.tail

/-- `strings.Split` on a string with a one-character separator. -/
def goSplit (sep : Char) (s : String) : List String :=
  (splitOnChar sep s.data).map String.mk

/-- Split at the first `=` (`strings.IndexByte(v, '=')` followed by the
two slices): returns the part before it and, when present, the part after
it. -/
def splitFirstEq : List Char → List Char × Option (List Char)
  | [] => ([], none)
  | c :: rest =>
      if c = '=' then ([], some rest)
      else
        let r := splitFirstEq rest
        (c :: r.1, r.2)

/-- Numeric value of a digit character, 100 when not a digit (so that any
base test fails). -/
def digitVal (c : Char) : ℕ :=
  if '0' ≤ c ∧ c ≤ '9' then c.toNat - 48
  else if 'a' ≤ c ∧ c ≤ 'z' then c.toNat - 87
  else if 'A' ≤ c ∧ c ≤ 'Z' then c.toNat - 55
  else 100

/-- Parse a non-empty digit string in the given base. -/
def parseDigits (base : ℕ) (cs : List Char) : Option ℕ :=
  if cs = [] then none
  else
    cs.foldl
      (fun acc c =>
        match acc with
        | none => none
        | some a => if digitVal c < base then some (a * base + digitVal c) else none)
      (some 0)

/-- Magnitude part of `strconv.ParseUint(s, 0, _)`: base detected from a
`0x`/`0o`/`0b`/leading-zero marker, decimal otherwise. -/
def parseUintCore (cs : List Char) : Option ℕ :=
  match cs with
  | [] => none
  | ['0'] => some 0
  | '0' :: c :: rest =>
      if c = 'x' ∨ c = 'X' then parseDigits 16 rest
      else if c = 'o' ∨ c = 'O' then parseDigits 8 rest
      else if c = 'b' ∨ c = 'B' then parseDigits 2 rest
      else parseDigits 8 (c :: rest)
  | _ => parseDigits 10 cs

/-- `strconv.ParseInt(s, 0, 64)` as used by `AsInt`: optional sign, base
detection, and the ErrRange contract (on overflow the clamped extreme value
is returned together with a non-nil error, hence the `false` flag). -/
def goParseInt (s : String) : ℤ × Bool :=
  let fromMag (neg : Bool) (m : Option ℕ) : ℤ × Bool :=
    match m with
    | none => (0, false)
    | some n =>
        if neg then
          if n ≤ 2 ^ 63 then (-(n : ℤ), true) else (-(2 ^ 63), false)
        else
          if n ≤ 2 ^ 63 - 1 then ((n : ℤ), true) else (2 ^ 63 - 1, false)
  match s.data with
  | '+' :: cs => fromMag false (parseUintCore cs)
  | '-' :: cs => fromMag true (parseUintCore cs)
  | cs => fromMag false (parseUintCore cs)

/-- `strconv.ParseUint(s, 0, 64)` as used by `AsUint` (signs rejected). -/
def goParseUint (s : String) : ℕ × Bool :=
  match parseUintCore s.data with
  | none => (0, false)
  | some n => if n ≤ 2 ^ 64 - 1 then (n, true) else (2 ^ 64 - 1, false)

/-- `strconv.ParseFloat` for plain decimal forms (optional sign, digits,
optional fractional part).  Exponents, hex floats and inf/NaN spellings are
not needed by any claim and are parsed as failures here. -/
def goParseFloat (s : String) : Option ℚ :=
  let parsePos (cs : List Char) : Option ℚ :=
    let parts := splitOnChar '.' cs
    match parts with
    | [ip] =>
        match parseDigits 10 ip with
        | some n => some (n : ℚ)
        | none => none
    | [ip, fp] =>
        if ip = [] ∧ fp = [] then none
        else
          let ipv := if ip = [] then some 0 else parseDigits 10 ip
          let fpv := if fp = [] then some 0 else parseDigits 10 fp
          match ipv, fpv with
          | some n, some f => some ((n : ℚ) + (f : ℚ) / (10 : ℚ) ^ fp.length)
          | _, _ => none
    | _ => none
  match s.data with
  | '+' :: cs => parsePos cs
  | '-' :: cs => (parsePos cs).map (fun q => -q)
  | cs => parsePos cs

/-- The string `fmt.Sprintf("%v", v)` produces in the default branches of
`AsString` and `AsByteArray`.  Those branches report `ok = false` and every
engine call site discards the string on failure, so its exact content is
unobservable; we model it as the empty string. -/
def govFormat (_ : Value) : String := ""

/-- `BaseType` (basetype.go): unwrap values to their underlying primitive
shape — all signed kinds to int64, unsigned kinds to uint64, floats to
float64, pointers dereferenced (nil pointers to nil). -/
def BaseType : Value → Value
  | .bool b => .bool b
  | .int _ n => .int .i64 n
  | .uint _ n => .uint .u64 n
  | .float _ q => .float .f64 q
  | .str s => .str s
  | .ptr _ none => .nilV
  | .ptr _ (some v) => BaseType v
  | v => v

/-- `AsBool` (anyconv.go): loose conversion to bool.  The `map[string]any`
and `[]any` cases of the Go switch match only those exact types; other maps
and slices (except `[]byte`) fall to the default `false`. -/
def AsBool (v : Value) : Bool :=
  match BaseType v with
  | .bool b => b
  | .int _ n => n ≠ 0
  | .uint _ n => n ≠ 0
  | .float _ q => q ≠ 0
  | .str s =>
      if s.length > 1 then true
      else if s.length = 0 ∨ s = "0" then false
      else true
  | .slice e xs =>
      if e = .uint .u8 then
        match bytesOfList xs with
        | some bs =>
            if bs.length > 1 then true
            else if bs.length = 0 ∨ bs.headD 0 = 48 then false
            else true
        | none => false
      else if e = .iface then !xs.isEmpty
      else false
  | .mapV k v' es => if k = .str ∧ v' = .iface then !es.isEmpty else false
  | _ => false

/-- `AsInt` (anyconv.go): loose conversion to int64 with a success flag.
After `BaseType`, integer kinds are exact; a uint64 with the top bit set is
reinterpreted with `false`; floats are `math.Round`ed and the flag checks
`float64(int64(x)) == x` (always true in the int64 range, false outside,
where Go's float-to-int conversion yields the platform value min-int64);
strings go through `strconv.ParseInt`. -/
def AsInt (v : Value) : ℤ × Bool :=
  match BaseType v with
  | .int _ n => (n, true)
  | .uint _ n =>
      if n.testBit 63 then (toSigned64 n, false) else ((n : ℤ), true)
  | .bool b => (if b then 1 else 0, true)
  | .float _ q =>
      let x := goRound q
      if -(2 ^ 63) ≤ x ∧ x < 2 ^ 63 then (x, true) else (-(2 ^ 63), false)
  | .str s => goParseInt s
  | .slice e xs =>
      if e = .uint .u8 then
        match bytesOfList xs with
        | some bs => goParseInt (stringOfBytes bs)
        | none => (0, false)
      else (0, false)
  | .nilV => (0, true)
  | _ => (0, false)

/-- `AsUint` (anyconv.go): loose conversion to uint64 with a success flag.
The signed cases return `uint64(n)` paired with the strict test `n > 0`
(so zero reports failure); negative floats fail; there is no `[]byte`
case, so byte slices fall to the default failure. -/
def AsUint (v : Value) : ℕ × Bool :=
  match BaseType v with
  | .int _ n => (toUnsigned64 n, decide (0 < n))
  | .uint _ n => (n, true)
  | .float _ q =>
      if q < 0 then (0, false)
      else
        let x := goRound q
        if x < 2 ^ 64 then (x.toNat, true) else (0, false)
  | .bool b => (if b then 1 else 0, true)
  | .str s => goParseUint s
  | .nilV => (0, true)
  | _ => (0, false)

/-- `AsFloat` (anyconv.go): numeric kinds exactly, strings via
`strconv.ParseFloat`, nil as zero; anything else falls through to `AsInt`. -/
def AsFloat (v : Value) : ℚ × Bool :=
  match BaseType v with
  | .int _ n => ((n : ℚ), true)
  | .uint _ n => ((n : ℚ), true)
  | .float _ q => (q, true)
  | .str s =>
      match goParseFloat s with
      | some q => (q, true)
      | none => (0, false)
  | .nilV => (0, true)
  | v' =>
      let r := AsInt v'
      ((r.1 : ℚ), r.2)

/-- `AsString` (anyconv.go): strings and byte sequences verbatim, integers
in decimal, bools as "1"/"0"; everything else (including floats) takes the
`fmt.Sprintf` default branch with a `false` flag. -/
def AsString (v : Value) : String × Bool :=
  match BaseType v with
  | .str s => (s, true)
  | .slice e xs =>
      if e = .uint .u8 then
        match bytesOfList xs with
        | some bs => (stringOfBytes bs, true)
        | none => (govFormat (.slice e xs), false)
      else (govFormat (.slice e xs), false)
  | .int _ n => (toString n, true)
  | .uint _ n => (toString n, true)
  | .bool b => (if b then "1" else "0", true)
  | v' => (govFormat v', false)

/-- The standard base64 alphabet (RFC 4648), as used by
`base64.StdEncoding` in `makeAssignToString` and `makeAssignToByteSlice`. -/
def b64alphabet : List Char :=
  "ABCDEFGHIJKLMNOPQRSTUVWXYZabcdefghijklmnopqrstuvwxyz0123456789+/".data

/-- Character of a sextet value. -/
def encB64Char (s : ℕ) : Char := b64alphabet.getD s 'A'

/-- Sextet value of a character, `none` when outside the alphabet
(in particular for the padding character). -/
def decB64Char (c : Char) : Option ℕ :=
  b64alphabet.findIdx? (fun x => x == c)

/-- `base64.StdEncoding.EncodeToString` on the character level: blocks of
three bytes become four alphabet characters, a trailing block of one or two
bytes is padded with `=`. -/
def encodeB64Chars : List ℕ → List Char
  | [] => []
  | [b1] => [encB64Char (b1 / 4), encB64Char (b1 % 4 * 16), '=', '=']
  | [b1, b2] =>
      [encB64Char (b1 / 4), encB64Char (b1 % 4 * 16 + b2 / 16),
       encB64Char (b2 % 16 * 4), '=']
  | b1 :: b2 :: b3 :: rest =>
      encB64Char (b1 / 4) :: encB64Char (b1 % 4 * 16 + b2 / 16) ::
      encB64Char (b2 % 16 * 4 + b3 / 64) :: encB64Char (b3 % 64) ::
      encodeB64Chars rest

/-- `base64.StdEncoding.EncodeToString`. -/
def encodeB64 (bs : List ℕ) : String := String.mk (encodeB64Chars bs)

/-- `base64.StdEncoding.DecodeString` on the character level: quads of
alphabet characters, padding allowed only in the final quad, anything else
(including a length not a multiple of four) is a corrupt-input error,
modelled as `none`. -/
def decodeB64Chars : List Char → Option (List ℕ)
  | [] => some []
  | c1 :: c2 :: c3 :: c4 :: rest =>
      match decB64Char c1, decB64Char c2 with
      | some s1, some s2 =>
          if c3 = '=' then
            if c4 = '=' ∧ rest = [] then some [s1 * 4 + s2 / 16] else none
          else
            match decB64Char c3 with
            | some s3 =>
                if c4 = '=' then
                  if rest = [] then some [s1 * 4 + s2 / 16, s2 % 16 * 16 + s3 / 4]
                  else none
                else
                  match decB64Char c4 with
                  | some s4 =>
                      match decodeB64Chars rest with
                      | some bs =>
                          some ((s1 * 4 + s2 / 16) :: (s2 % 16 * 16 + s3 / 4) ::
                                (s3 % 4 * 64 + s4) :: bs)
                      | none => none
                  | none => none
            | none => none
      | _, _ => none
  | _ => none

/-- `base64.StdEncoding.DecodeString`. -/
def decodeB64 (s : String) : Option (List ℕ) := decodeB64Chars s.data

/-- A registered validator: `validatorObject` of validator.go.  The stored
function models `runReflectValue` applied to the address of the field being
validated: the conversion of the field value into the declared argument
type, the extra tag arguments prepared by `convertArgs`, and the user
function call are folded into one opaque Lean function from the raw tag
argument string and the field value to an optional error.  (Validators whose
declared argument type is a pointer may additionally mutate the field; no
claim checked here involves such a validator.) -/
structure ValidatorObj where
  run : String → Value → Option Err

/-- The process-wide named validator registry (`validators` map). -/
abbrev Registry := String → Option ValidatorObj

/-- `getValidators` (validator.go): split the tag on commas; each item may
carry an argument after `=`; a name missing from the registry is an error,
modelled as `none`. -/
def getValidators (reg : Registry) (s : String) : Option (List (Value → Option Err)) :=
  if s = "" then some []
  else
    (goSplit ',' s).foldl
      (fun acc item =>
        match acc with
        | none => none
        | some res =>
            let cut := splitFirstEq item.data
            let nm := String.mk cut.1
            let arg := match cut.2 with
              | some a => String.mk a
              | none => ""
            match reg nm with
            | none => none
            | some o => some (res ++ [fun val => o.run arg val]))
      (some [])

/-- `fieldValidator` (validator.go): a destination field index, its name,
and the validators attached to it by its tag. -/
structure fieldValidator where
  fld : ℕ
  name : String
  vals : List (Value → Option Err)

/-- `structValidator`: the validators of a struct type, in field
declaration order. -/
abbrev structValidator := List fieldValidator

/-- `getValidatorForType` (validator.go): non-struct types have no
validators; for a struct, scan the fields in declaration order, skipping
fields whose tag is empty or fails to resolve. -/
def getValidatorForType (env : Env) (reg : Registry) (t : Ty) : structValidator :=
  match t with
  | .structT n =>
      (List.enum (env.fieldsOf n)).foldl
        (fun val fi =>
          match getValidators reg fi.2.validatorTag with
          | none => val
          | some [] => val
          | some vs => val ++ [⟨fi.1, fi.2.name, vs⟩])
        []
  | _ => []

/-- First failure among one field's validators, in declared order
(the inner loop of `structValidator.validate`). -/
def runFieldVals : List (Value → Option Err) → Value → Option Err
  | [], _ => none
  | f :: fs, v =>
      match f v with
      | some e => some e
      | none => runFieldVals fs v

/-- `structValidator.validate` (validator.go): walk the field validators in
order; the first failure is wrapped with the field name and returned at
once, skipping all remaining fields and validators. -/
def structValidator.validate (sv : structValidator) (val : Value) : Option Err :=
  match sv with
  | [] => none
  | vd :: rest =>
      match runFieldVals vd.vals (val.fieldN vd.fld) with
      | some e => some (.onField vd.name e)
      | none => structValidator.validate rest val

/-- Defunctionalized conversion procedures: one constructor per closure
shape created in assign.go.  `simpleSet` is the shared identity/assignable
copy; `ptrRead` is `ptrReadAndAssign`; `newAlloc` is `newNewAndAssign`;
`anyToRuntime` is `makeAssignAnyToRuntime` (it records the destination slot
type that `AssignReflect` reads back at run time); `delegate` is the
placeholder closure `getAssignFunc` publishes into the cache before
synthesis (its execution waits for, then delegates to, the real entry);
the remaining constructors are the closures returned by the respective
`makeAssignTo…` functions, recording exactly the data those closures
capture. -/
inductive Plan where
  | simpleSet
  | ptrRead (sub : Plan)
  | newAlloc (pointee : Ty) (sub : Plan)
  | structToStruct (binds : List (ℕ × ℕ × Plan)) (sv : structValidator)
  | mapToStruct (fields : List (String × ℕ × Plan)) (sv : structValidator)
  | anyToRuntime (dstT : Ty)
  | strCopy
  | strFromBytes
  | strRuntime
  | boolCopy
  | boolRuntime
  | floatCopy (dstT : Ty)
  | floatRuntime (w : FloatW)
  | intCopy (dstT : Ty)
  | intRuntime (w : IntW)
  | uintCopy (dstT : Ty)
  | uintRuntime (w : UintW)
  | sliceCopy (elemT : Ty) (sub : Plan)
  | bytesFromString
  | mapFromMap (keyT valT : Ty) (kf vf : Plan)
  | structToMap (valT : Ty) (fields : List (String × ℕ × Plan))
  | delegate (dstT srcT : Ty)

/-- The process-wide `assignFuncCache` (a `sync.Map` keyed by
`assignConvType`), threaded explicitly. -/
abbrev Cache := List ((Ty × Ty) × Plan)

/-- Cache lookup (`sync.Map.Load`). -/
def Cache.find? : Cache → Ty × Ty → Option Plan
  | [], _ => none
  | e :: rest, k => if e.1 = k then some e.2 else Cache.find? rest k

/-- Cache write (`sync.Map.Store` / the write half of `LoadOrStore`). -/
def Cache.store : Cache → Ty × Ty → Plan → Cache
  | [], k, p => [(k, p)]
  | e :: rest, k, p => if e.1 = k then (k, p) :: rest else e :: Cache.store rest k p

/-- Cache removal (`sync.Map.Delete`). -/
def Cache.erase : Cache → Ty × Ty → Cache
  | [], _ => []
  | e :: rest, k => if e.1 = k then rest else e :: Cache.erase rest k

/-- Zero value of each field type, via the supplied zero-value constructor
(the recursion of `reflect.New` through struct fields). -/
def zeroFields (recur : Ty → Option Value) : List FieldDef → Option (List Value)
  | [] => some []
  | f :: fs =>
      match recur f.ty with
      | some v =>
          match zeroFields recur fs with
          | some vs => some (v :: vs)
          | none => none
      | none => none

/-- The zero value of a type, as created by `reflect.New(t).Elem()`:
nil for pointers, slices and maps, zero for scalars, a struct of zero
fields for structs.  Fueled because the `Ty` grammar admits type tables a
Go compiler would reject (a struct containing itself by value); every Go
type has a zero value at modest fuel. -/
def zeroValueF (env : Env) : ℕ → Ty → Option Value
  | 0, _ => none
  | Nat.succ n, t =>
      match t with
      | .str => some (.str "")
      | .boolT => some (.bool false)
      | .int w => some (.int w 0)
      | .uint w => some (.uint w 0)
      | .float w => some (.float w 0)
      | .slice e => some (.slice e [])
      | .mapT k v => some (.mapV k v [])
      | .structT nm =>
          match zeroFields (fun ty => zeroValueF env n ty) (env.fieldsOf nm) with
          | some vs => some (.structV nm vs)
          | none => none
      | .ptr t' => some (.ptr t' none)
      | .iface => some .nilV

/-- `ptrCount` (assign.go): pointer indirection depth of a type. -/
def ptrCount : Ty → ℕ
  | .ptr t => ptrCount t + 1
  | _ => 0

/-- `reflect.Type.AssignableTo` restricted to this `Ty` universe: a value
is assignable to its own type and to the empty interface.  (Go's further
assignability cases — unnamed types with identical underlying types,
non-empty interfaces — have no representatives in `Ty`.) -/
def tyAssignableTo (src dst : Ty) : Bool :=
  src == dst || dst == .iface

/-- Field-name resolution of the struct binding loops (assign.go): the
declared name, unless a `json` tag renames it — a tag starting with `-`
excludes the field, a tag starting with `,` keeps the declared name,
otherwise the first comma-separated segment is the effective name. -/
def resolveFieldName (f : FieldDef) : Option String :=
  if f.jsonTag = "" then some f.name
  else
    match f.jsonTag.data with
    | '-' :: _ => none
    | ',' :: _ => some f.name
    | cs => some (String.mk (cs.takeWhile (fun c => c ≠ ',')))

/-- Association-list lookup (a Go map read). -/
def assocFind? {α : Type} : List (String × α) → String → Option α
  | [], _ => none
  | e :: rest, k => if e.1 = k then some e.2 else assocFind? rest k

/-- Association-list write with overwrite (a Go map write). -/
def assocStore {α : Type} : List (String × α) → String → α → List (String × α)
  | [], k, v => [(k, v)]
  | e :: rest, k, v => if e.1 = k then (k, v) :: rest else e :: assocStore rest k v

/-- The source-field loop building the `fieldsIn` index of
`makeAssignStructToStruct`: walk the indexed source fields, skipping
unexported and tag-excluded ones, and insert each under its resolved name
(later fields overwriting earlier ones of the same resolved name, by Go
map semantics). -/
def fieldsInGo : List (ℕ × FieldDef) → List (String × (FieldDef × ℕ)) →
    List (String × (FieldDef × ℕ))
  | [], m => m
  | fi :: rest, m =>
      if !fi.2.exported then fieldsInGo rest m
      else
        match resolveFieldName fi.2 with
        | none => fieldsInGo rest m
        | some nm => fieldsInGo rest (assocStore m nm (fi.2, fi.1))

/-- The `fieldsIn` index of `makeAssignStructToStruct`: source fields by
resolved name.  Each entry carries the field and its declaration index. -/
def fieldsInOf (srcFields : List FieldDef) : List (String × (FieldDef × ℕ)) :=
  fieldsInGo srcFields.enum []

/-- Result type of one synthesis step: `none` when the fuel ran out
(modelling non-termination of the Go code), otherwise the outcome and the
cache after the step. -/
abbrev SynthRes := Option (Except Err Plan × Cache)

/-- A synthesis callback (`newAssignFunc` or `getAssignFunc` at the next
fuel level), used to keep each `makeAssign…` model a standalone
definition mirroring its Go counterpart. -/
abbrev SynthFn := Cache → Ty → Ty → SynthRes

/-- `makeAssignToString` (assign.go): string sources are copied, `[]byte`
sources are base64-encoded, anything else goes through the runtime
`AsString` coercion. -/
def makeAssignToString (srct : Ty) : Plan :=
  match srct with
  | .str => .strCopy
  | .slice e => if e = .uint .u8 then .strFromBytes else .strRuntime
  | _ => .strRuntime

/-- `makeAssignToBool`. -/
def makeAssignToBool (srct : Ty) : Plan :=
  match srct with
  | .boolT => .boolCopy
  | _ => .boolRuntime

/-- `makeAssignToFloat`. -/
def makeAssignToFloat (dstt srct : Ty) : Plan :=
  match srct with
  | .float _ => .floatCopy dstt
  | _ =>
      match dstt with
      | .float w => .floatRuntime w
      | _ => .floatRuntime .f64

/-- `makeAssignToInt`: a source of signed-integer kind takes the direct
`dst.Set(src)` closure; everything else takes the runtime `AsInt` +
`SetInt` closure. -/
def makeAssignToInt (dstt srct : Ty) : Plan :=
  match srct with
  | .int _ => .intCopy dstt
  | _ =>
      match dstt with
      | .int w => .intRuntime w
      | _ => .intRuntime .i64

/-- `makeAssignToUint`: same shape with unsigned kinds and `AsUint`. -/
def makeAssignToUint (dstt srct : Ty) : Plan :=
  match srct with
  | .uint _ => .uintCopy dstt
  | _ =>
      match dstt with
      | .uint w => .uintRuntime w
      | _ => .uintRuntime .u64

/-- `makeAssignToByteSlice`: strings are base64-decoded, interface sources
are resolved at run time, anything else is an impossible assignment. -/
def makeAssignToByteSlice (dstt srct : Ty) : Except Err Plan :=
  match srct with
  | .str => .ok .bytesFromString
  | .iface => .ok (.anyToRuntime dstt)
  | _ => .error (.bytesUnsupported srct)

/-- `makeAssignToSlice`: a `[]byte` destination is special-cased first;
for a slice source one element procedure is built through the cache
(`getAssignFunc`) and applied across elements; interface sources are
resolved at run time. -/
def makeAssignToSlice (getRec : SynthFn) (cache : Cache) (dstt srct et : Ty) : SynthRes :=
  if et = .uint .u8 then some (makeAssignToByteSlice dstt srct, cache)
  else
    match srct with
    | .slice st =>
        match getRec cache et st with
        | none => none
        | some (.error e, c') => some (.error e, c')
        | some (.ok sub, c') => some (.ok (.sliceCopy et sub), c')
    | .iface => some (.ok (.anyToRuntime dstt), cache)
    | _ => some (.error (.sliceSrcInvalid srct), cache)

/-- The field loop of the struct case of `makeAssignToMap`: the source
fields are indexed by resolved name (this loop has no exported-field check
in the Go source); a tag-excluded field is skipped before its conversion is
synthesized; a synthesis failure for a field aborts the whole procedure. -/
def mapStructFieldLoop (getRec : SynthFn) (dv : Ty) :
    List (ℕ × FieldDef) → Cache → List (String × ℕ × Plan) →
    Option (Except Err (List (String × ℕ × Plan)) × Cache)
  | [], c, fields => some (.ok fields, c)
  | fi :: rest, c, fields =>
      match resolveFieldName fi.2 with
      | none => mapStructFieldLoop getRec dv rest c fields
      | some nm =>
          match getRec c dv fi.2.ty with
          | none => none
          | some (.error e, c') => some (.error e, c')
          | some (.ok sub, c') =>
              mapStructFieldLoop getRec dv rest c' (assocStore fields nm (fi.1, sub))

/-- `makeAssignToMap`: map sources get key and value sub-procedures built
once through the cache; struct sources require a string key kind and index
the source fields by resolved name. -/
def makeAssignToMap (getRec : SynthFn) (env : Env) (cache : Cache)
    (srct dk dv : Ty) : SynthRes :=
  match srct with
  | .mapT sk sv' =>
      match getRec cache dk sk with
      | none => none
      | some (.error e, c') => some (.error e, c')
      | some (.ok kf, c') =>
          match getRec c' dv sv' with
          | none => none
          | some (.error e, c2) => some (.error e, c2)
          | some (.ok vf, c2) => some (.ok (.mapFromMap dk dv kf vf), c2)
  | .structT sname =>
      if dk ≠ .str then some (.error .mapKeyNotString, cache)
      else
        match mapStructFieldLoop getRec dv ((env.fieldsOf sname).enum) cache [] with
        | none => none
        | some (.error e, c) => some (.error e, c)
        | some (.ok fields, c) => some (.ok (.structToMap dv fields), c)
  | _ => some (.error (.mapSrcUnsupported srct), cache)

/-- The destination-field loop of `makeAssignStructToStruct`: for every
exported, non-excluded destination field with a source field of the same
resolved name, synthesize the field conversion (`newAssignFunc`, not the
cache) and record the binding; a synthesis failure fails the whole struct
procedure; unmatched destination fields are skipped silently. -/
def structFieldLoop (newRec : SynthFn) (fieldsIn : List (String × (FieldDef × ℕ))) :
    List (ℕ × FieldDef) → Cache → List (ℕ × ℕ × Plan) →
    Option (Except Err (List (ℕ × ℕ × Plan)) × Cache)
  | [], c, binds => some (.ok binds, c)
  | fi :: rest, c, binds =>
      if !fi.2.exported then structFieldLoop newRec fieldsIn rest c binds
      else
        match resolveFieldName fi.2 with
        | none => structFieldLoop newRec fieldsIn rest c binds
        | some nm =>
            match assocFind? fieldsIn nm with
            | none => structFieldLoop newRec fieldsIn rest c binds
            | some (srcf, srcIdx) =>
                match newRec c fi.2.ty srcf.ty with
                | none => none
                | some (.error e, c') => some (.error e, c')
                | some (.ok sub, c') =>
                    structFieldLoop newRec fieldsIn rest c' (binds ++ [(srcIdx, fi.1, sub)])

/-- `makeAssignStructToStruct` (assign.go): index the source fields by
resolved name, bind matching destination fields in declaration order, and
attach the destination type's validators. -/
def makeAssignStructToStruct (newRec : SynthFn) (env : Env) (reg : Registry)
    (cache : Cache) (dname sname : String) : SynthRes :=
  match structFieldLoop newRec (fieldsInOf (env.fieldsOf sname))
      ((env.fieldsOf dname).enum) cache [] with
  | none => none
  | some (.error e, c) => some (.error e, c)
  | some (.ok binds, c) =>
      some (.ok (.structToStruct binds (getValidatorForType env reg (.structT dname))), c)

/-- The destination-field loop of `makeAssignMapToStruct`: for every
exported destination field the conversion from the map value type is
synthesized *before* the tag is inspected (so a field excluded by tag can
still fail synthesis, as in the Go source); resolvable fields are indexed
by resolved name. -/
def mapToStructFieldLoop (newRec : SynthFn) (mapvtype : Ty) :
    List (ℕ × FieldDef) → Cache → List (String × ℕ × Plan) →
    Option (Except Err (List (String × ℕ × Plan)) × Cache)
  | [], c, fields => some (.ok fields, c)
  | fi :: rest, c, fields =>
      if !fi.2.exported then mapToStructFieldLoop newRec mapvtype rest c fields
      else
        match newRec c fi.2.ty mapvtype with
        | none => none
        | some (.error e, c') => some (.error e, c')
        | some (.ok sub, c') =>
            match resolveFieldName fi.2 with
            | none => mapToStructFieldLoop newRec mapvtype rest c' fields
            | some nm =>
                mapToStructFieldLoop newRec mapvtype rest c'
                  (assocStore fields nm (fi.1, sub))

/-- `makeAssignMapToStruct` (assign.go): only string-keyed source maps are
supported; destination fields are indexed by resolved name and matched
against source map keys at execution time. -/
def makeAssignMapToStruct (newRec : SynthFn) (env : Env) (reg : Registry)
    (cache : Cache) (dname : String) (srct sk mapvtype : Ty) : SynthRes :=
  match sk with
  | .str =>
      match mapToStructFieldLoop newRec mapvtype ((env.fieldsOf dname).enum) cache [] with
      | none => none
      | some (.error e, c) => some (.error e, c)
      | some (.ok fields, c) =>
          some (.ok (.mapToStruct fields (getValidatorForType env reg (.structT dname))), c)
  | _ => some (.error (.mapToStructSrcInvalid srct), cache)

/-- `newNewAndAssign` (assign.go): allocate-then-convert for a destination
with more pointer indirection. -/
def newNewAndAssign (newRec : SynthFn) (cache : Cache) (dstt srct : Ty) : SynthRes :=
  match dstt with
  | .ptr subt =>
      match newRec cache subt srct with
      | none => none
      | some (.error e, c') => some (.error e, c')
      | some (.ok sub, c') => some (.ok (.newAlloc subt sub), c')
  | _ => some (.error (.panik "newNewAndAssign on non-pointer"), cache)

/-- `ptrReadAndAssign` (assign.go): dereference-then-convert for a source
with more pointer indirection. -/
def ptrReadAndAssign (newRec : SynthFn) (cache : Cache) (dstt srct : Ty) : SynthRes :=
  match srct with
  | .ptr subt =>
      match newRec cache dstt subt with
      | none => none
      | some (.error e, c') => some (.error e, c')
      | some (.ok sub, c') => some (.ok (.ptrRead sub), c')
  | _ => some (.error (.panik "ptrReadAndAssign on non-pointer"), cache)

/-- `getAssignFunc` (assign.go) minus its recursion into `newAssignFunc`,
which is supplied as `newRec`: identical types short-circuit to a direct
copy; a cache hit (including an in-flight placeholder) is returned as is;
on a miss the placeholder is published first, then the real procedure is
synthesized and stored, the placeholder being deleted if synthesis fails. -/
def getAssignFuncCore (newRec : SynthFn) (cache : Cache) (dstt srct : Ty) : SynthRes :=
  if dstt = srct then some (.ok .simpleSet, cache)
  else
    match Cache.find? cache (dstt, srct) with
    | some p => some (.ok p, cache)
    | none =>
        let c1 := Cache.store cache (dstt, srct) (.delegate dstt srct)
        match newRec c1 dstt srct with
        | none => none
        | some (.error e, c2) => some (.error e, Cache.erase c2 (dstt, srct))
        | some (.ok f, c2) => some (.ok f, Cache.store c2 (dstt, srct) f)

/-- `newAssignFunc` (assign.go), fueled.  Dispatch order as in the source:
assignability, pointer-depth reconciliation, then the kind table on the
destination.  The `valueScanner` / `AssignableTo` capability checks sit
between the pointer step and the kind table in the source; no type of this
`Ty` universe implements either capability, so both checks are vacuous
here.  Note that the recursive synthesis calls for struct fields and for
pointer reconciliation go through `newAssignFunc` directly — only the
slice and map cases consult the cache via `getAssignFunc`. -/
def newAssignFuncF (env : Env) (reg : Registry) : ℕ → Cache → Ty → Ty → SynthRes
  | 0, _, _, _ => none
  | Nat.succ n, cache, dstt, srct =>
      if tyAssignableTo srct dstt then some (.ok .simpleSet, cache)
      else if ptrCount dstt < ptrCount srct then
        ptrReadAndAssign (fun c a b => newAssignFuncF env reg n c a b) cache dstt srct
      else if 0 < ptrCount dstt then
        newNewAndAssign (fun c a b => newAssignFuncF env reg n c a b) cache dstt srct
      else
        match dstt with
        | .str => some (.ok (makeAssignToString srct), cache)
        | .boolT => some (.ok (makeAssignToBool srct), cache)
        | .float _ => some (.ok (makeAssignToFloat dstt srct), cache)
        | .int _ => some (.ok (makeAssignToInt dstt srct), cache)
        | .uint _ => some (.ok (makeAssignToUint dstt srct), cache)
        | .slice et =>
            makeAssignToSlice
              (fun c a b =>
                getAssignFuncCore (fun c' a' b' => newAssignFuncF env reg n c' a' b') c a b)
              cache dstt srct et
        | .mapT dk dv =>
            makeAssignToMap
              (fun c a b =>
                getAssignFuncCore (fun c' a' b' => newAssignFuncF env reg n c' a' b') c a b)
              env cache srct dk dv
        | .structT dname =>
            match srct with
            | .structT sname =>
                makeAssignStructToStruct (fun c a b => newAssignFuncF env reg n c a b)
                  env reg cache dname sname
            | .mapT sk mv =>
                makeAssignMapToStruct (fun c a b => newAssignFuncF env reg n c a b)
                  env reg cache dname srct sk mv
            | .iface => some (.ok (.anyToRuntime dstt), cache)
            | _ => some (.error (.impossibleConv srct dstt), cache)
        | _ => some (.error (.impossibleConv srct dstt), cache)

/-- `getAssignFunc` (assign.go), fueled: the cache protocol of
`getAssignFuncCore` around `newAssignFunc`. -/
def getAssignFuncF (env : Env) (reg : Registry) (fuel : ℕ) (cache : Cache)
    (dstt srct : Ty) : SynthRes :=
  getAssignFuncCore (fun c a b => newAssignFuncF env reg fuel c a b) cache dstt srct

/-- In-place update of a struct field slot (`dst.Field(i)` being written
through). -/
def Value.setFieldN : Value → ℕ → Value → Value
  | .structV n fs, i, v => .structV n (fs.set i v)
  | w, _, _ => w

/-- `reflect.Value.SetMapIndex`: insert or overwrite by Go key equality. -/
def mapStore : List (Value × Value) → Value → Value → List (Value × Value)
  | [], k, v => [(k, v)]
  | e :: rest, k, v =>
      if Value.beq e.1 k then (k, v) :: rest else e :: mapStore rest k v

/-- Lookup in a map value's entry list by Go key equality. -/
def mapFind? : List (Value × Value) → Value → Option Value
  | [], _ => none
  | e :: rest, k => if Value.beq e.1 k then some e.2 else mapFind? rest k

/-- Result of one execution step: fuel exhaustion, or the cache, the
destination value after the step (Go mutates the destination in place, so
it is returned even when an error is also returned), and the optional
error. -/
abbrev ExecRes := Option (Cache × Value × Option Err)

/-- An execution callback (`execF` at the next fuel level). -/
abbrev ExecFn := Cache → Plan → Value → Value → ExecRes

/-- The field loop of the `makeAssignStructToStruct` closure: apply each
binding's sub-procedure to the destination field slot in the recorded
(declaration) order; the first failure returns at once, leaving the
destination partially written. -/
def execStructFields (recur : ExecFn) :
    List (ℕ × ℕ × Plan) → Cache → Value → Value → ExecRes
  | [], c, dst, _ => some (c, dst, none)
  | (inI, outI, sub) :: rest, c, dst, src =>
      match recur c sub (dst.fieldN outI) (src.fieldN inI) with
      | none => none
      | some (c', v', some e) => some (c', dst.setFieldN outI v', some e)
      | some (c', v', none) => execStructFields recur rest c' (dst.setFieldN outI v') src

/-- The entry loop of the `makeAssignMapToStruct` closure: visit the source
map entries, convert those whose key matches a bound destination field, and
ignore the rest; the first failure returns at once. -/
def execMapToStructEntries (recur : ExecFn) (fields : List (String × ℕ × Plan)) :
    List (Value × Value) → Cache → Value → ExecRes
  | [], c, dst => some (c, dst, none)
  | (k, v) :: rest, c, dst =>
      match k with
      | .str s =>
          match assocFind? fields s with
          | none => execMapToStructEntries recur fields rest c dst
          | some (outI, sub) =>
              match recur c sub (dst.fieldN outI) v with
              | none => none
              | some (c', v', some e) => some (c', dst.setFieldN outI v', some e)
              | some (c', v', none) =>
                  execMapToStructEntries recur fields rest c' (dst.setFieldN outI v')
      | _ => execMapToStructEntries recur fields rest c dst

/-- The element loop of the slice-to-slice closure: each pair is the
destination slot (prior element or grown zero slot) and the source element;
on failure the already-converted prefix is kept and the remaining slots are
left as they were. -/
def execSliceElems (recur : ExecFn) (sub : Plan) :
    List (Value × Value) → Cache → Option (Cache × List Value × Option Err)
  | [], c => some (c, [], none)
  | (d0, s0) :: rest, c =>
      match recur c sub d0 s0 with
      | none => none
      | some (c', v', some e) => some (c', v' :: rest.map (fun p => p.1), some e)
      | some (c', v', none) =>
          match execSliceElems recur sub rest c' with
          | none => none
          | some (c2, vs, err) => some (c2, v' :: vs, err)

/-- The entry loop of the map-to-map closure: each source entry's key and
value are converted into fresh zero slots and inserted into the freshly
made destination map; the first failure returns the partially filled fresh
map. -/
def execMapEntries (recur : ExecFn) (kf vf : Plan) (zk zv : Value) :
    List (Value × Value) → Cache → List (Value × Value) →
    Option (Cache × List (Value × Value) × Option Err)
  | [], c, acc => some (c, acc, none)
  | (k0, v0) :: rest, c, acc =>
      match recur c kf zk k0 with
      | none => none
      | some (c', _, some e) => some (c', acc, some e)
      | some (c', dk, none) =>
          match recur c' vf zv v0 with
          | none => none
          | some (c2, _, some e) => some (c2, acc, some e)
          | some (c2, dv, none) =>
              execMapEntries recur kf vf zk zv rest c2 (mapStore acc dk dv)

/-- The field loop of the struct-to-map closure: convert each recorded
source field into a fresh zero slot and insert it under its resolved name;
the first failure returns the partially filled fresh map.  (Go iterates the
`fieldsIn` map in unspecified order; the model iterates in insertion
order.) -/
def execStructToMapFields (recur : ExecFn) (zv : Value) (src : Value) :
    List (String × ℕ × Plan) → Cache → List (Value × Value) →
    Option (Cache × List (Value × Value) × Option Err)
  | [], c, acc => some (c, acc, none)
  | (nm, inI, sub) :: rest, c, acc =>
      match recur c sub zv (src.fieldN inI) with
      | none => none
      | some (c', _, some e) => some (c', acc, some e)
      | some (c', dv, none) =>
          execStructToMapFields recur zv src rest c' (mapStore acc (.str nm) dv)

/-- Execution of a synthesized procedure (the closures of assign.go),
fueled.  The destination slot value is threaded and returned (Go writes
destinations in place); `none` is fuel exhaustion.  A `panik` error models
a Go runtime panic, in particular `reflect.Value.Set` with a value of a
different type in the direct integer/float copy closures. -/
def execF (env : Env) (reg : Registry) : ℕ → Cache → Plan → Value → Value → ExecRes
  | 0, _, _, _, _ => none
  | Nat.succ n, cache, plan, dst, src =>
      let recur : ExecFn := fun c p d s => execF env reg n c p d s
      match plan with
      | .simpleSet => some (cache, src, none)
      | .ptrRead sub =>
          match src with
          | .ptr _ none => some (cache, dst, some .nilPointerRead)
          | .ptr _ (some v) => recur cache sub dst v
          | _ => some (cache, dst, some (.panik "ptrRead on non-pointer"))
      | .newAlloc subt sub =>
          match dst with
          | .ptr _ (some cur) =>
              match recur cache sub cur src with
              | none => none
              | some (c', v', e) => some (c', .ptr subt (some v'), e)
          | .ptr _ none =>
              match zeroValueF env n subt with
              | none => none
              | some z =>
                  match recur cache sub z src with
                  | none => none
                  | some (c', v', e) => some (c', .ptr subt (some v'), e)
          | _ => some (cache, dst, some (.panik "newAlloc on non-pointer"))
      | .structToStruct binds sv =>
          match execStructFields recur binds cache dst src with
          | none => none
          | some (c', dst', some e) => some (c', dst', some e)
          | some (c', dst', none) =>
              match sv.validate dst' with
              | some e => some (c', dst', some e)
              | none => some (c', dst', none)
      | .mapToStruct fields sv =>
          match src with
          | .mapV _ _ ses =>
              match execMapToStructEntries recur fields ses cache dst with
              | none => none
              | some (c', dst', some e) => some (c', dst', some e)
              | some (c', dst', none) =>
                  match sv.validate dst' with
                  | some e => some (c', dst', some e)
                  | none => some (c', dst', none)
          | _ => some (cache, dst, some (.panik "mapToStruct on non-map"))
      | .anyToRuntime dstT =>
          match src with
          | .nilV => some (cache, dst, some .invalidSource)
          | _ =>
              match getAssignFuncCore (fun c a b => newAssignFuncF env reg n c a b)
                  cache dstT src.tyOf with
              | none => none
              | some (.error e, c') =>
                  some (c', dst, some (.assignCtx src.tyOf dstT e))
              | some (.ok p, c') => recur c' p dst src
      | .strCopy => some (cache, src, none)
      | .strFromBytes =>
          match src with
          | .slice _ xs =>
              match bytesOfList xs with
              | some bs => some (cache, .str (encodeB64 bs), none)
              | none => some (cache, dst, some (.panik "Bytes on non-byte slice"))
          | _ => some (cache, dst, some (.panik "Bytes on non-slice"))
      | .strRuntime =>
          match AsString src with
          | (s, true) => some (cache, .str s, none)
          | (_, false) => some (cache, dst, some (.cannotConvert "string" src.tyOf))
      | .boolCopy => some (cache, src, none)
      | .boolRuntime => some (cache, .bool (AsBool src), none)
      | .floatCopy dstT =>
          if src.tyOf = dstT then some (cache, src, none)
          else some (cache, dst, some (.panik "reflect.Set: wrong float type"))
      | .floatRuntime w =>
          match AsFloat src with
          | (q, true) => some (cache, .float w q, none)
          | (_, false) => some (cache, dst, some (.cannotConvert "float" src.tyOf))
      | .intCopy dstT =>
          if src.tyOf = dstT then some (cache, src, none)
          else some (cache, dst, some (.panik "reflect.Set: wrong int type"))
      | .intRuntime w =>
          match AsInt src with
          | (v, true) => some (cache, .int w (wrapSigned w v), none)
          | (_, false) => some (cache, dst, some (.cannotConvert "int" src.tyOf))
      | .uintCopy dstT =>
          if src.tyOf = dstT then some (cache, src, none)
          else some (cache, dst, some (.panik "reflect.Set: wrong uint type"))
      | .uintRuntime w =>
          match AsUint src with
          | (v, true) => some (cache, .uint w (wrapUnsigned w v), none)
          | (_, false) => some (cache, dst, some (.cannotConvert "int" src.tyOf))
      | .sliceCopy et sub =>
          match src with
          | .slice _ xs =>
              let ys := match dst with
                | .slice _ ys => ys
                | _ => []
              match zeroValueF env n et with
              | none => none
              | some z =>
                  let base := (ys ++ List.replicate (xs.length - ys.length) z).take xs.length
                  match execSliceElems recur sub (base.zip xs) cache with
                  | none => none
                  | some (c', vs, err) => some (c', .slice et vs, err)
          | _ => some (cache, dst, some (.panik "sliceCopy on non-slice"))
      | .bytesFromString =>
          match src with
          | .str s =>
              match decodeB64 s with
              | some bs =>
                  some (cache, .slice (.uint .u8) (bs.map (fun b => .uint .u8 b)), none)
              | none => some (cache, dst, some .base64Corrupt)
          | _ => some (cache, dst, some (.panik "bytesFromString on non-string"))
      | .mapFromMap dk dv kf vf =>
          match src with
          | .mapV _ _ ses =>
              match zeroValueF env n dk, zeroValueF env n dv with
              | some zk, some zv =>
                  match execMapEntries recur kf vf zk zv ses cache [] with
                  | none => none
                  | some (c', es', err) => some (c', .mapV dk dv es', err)
              | _, _ => none
          | _ => some (cache, dst, some (.panik "mapFromMap on non-map"))
      | .structToMap dv fields =>
          match zeroValueF env n dv with
          | none => none
          | some zv =>
              match dst with
              | .mapV dk0 dv0 _ =>
                  match execStructToMapFields recur zv src fields cache [] with
                  | none => none
                  | some (c', es', err) => some (c', .mapV dk0 dv0 es', err)
              | _ => some (cache, dst, some (.panik "structToMap on non-map"))
      | .delegate dT sT =>
          match Cache.find? cache (dT, sT) with
          | some p => recur cache p dst src
          | none => some (cache, dst, some (.panik "delegate without cache entry"))

/-- `As[T]` (assign.go): allocate a zero value of the destination type,
run `AssignReflect` into it, and return the (possibly partially written)
value together with the error.  `AssignReflect` unwraps an interface-kind
source (model: the source is already the dynamic value, `none` standing
for nil/invalid), dereferences the freshly allocated destination pointer to
its element slot, reports `ErrInvalidSource` for an invalid source, and
otherwise synthesizes via `getAssignFunc` (wrapping synthesis errors with
both type names) and runs the procedure. -/
def AsF (env : Env) (reg : Registry) (fuel : ℕ) (t : Ty) (src : Option Value) :
    Option (Value × Option Err) :=
  match zeroValueF env fuel t with
  | none => none
  | some z =>
      match src with
      | none => some (z, some .invalidSource)
      | some sv =>
          match getAssignFuncF env reg fuel [] t sv.tyOf with
          | none => none
          | some (.error e, _) => some (z, some (.assignCtx sv.tyOf t e))
          | some (.ok p, c) =>
              match execF env reg fuel c p z sv with
              | none => none
              | some (_, v, e) => some (v, e)

/-- The empty validator registry, used by claims that involve no
validators. -/
def regEmpty : Registry := fun _ => none

example : AsF [] regEmpty 9 (.int .i) (some (.str "42")) =
    some (.int .i 42, none) := by rfl

example : AsF [] regEmpty 9 (.int .i) none = some (.int .i 0, some .invalidSource) := by rfl

example : AsF [] regEmpty 9 .str (some (.slice (.uint .u8)
    [.uint .u8 104, .uint .u8 101, .uint .u8 108, .uint .u8 108, .uint .u8 111])) =
    some (.str "aGVsbG8=", none) := by rfl

/-- The float64 value 42.5 (exactly representable), as a normalized
rational given by its reduced numerator and denominator so that closed
computations on it reduce definitionally. -/
def ratHalf425 : ℚ := ⟨85, 2, by decide, by decide⟩

/-- The float64 value -42.5. -/
def ratHalfNeg425 : ℚ := ⟨-85, 2, by decide, by decide⟩

example : AsF [] regEmpty 9 (.int .i) (some (.float .f64 ratHalf425)) =
    some (.int .i 43, none) := by rfl

example : AsF [] regEmpty 9 (.int .i) (some (.float .f64 ratHalfNeg425)) =
    some (.int .i (-43), none) := by rfl

example : AsF [] regEmpty 9 (.int .i8) (some (.uint .u64 1000)) =
    some (.int .i8 (-24), none) := by rfl

example : AsF [] regEmpty 9 (.uint .u) (some (.int .i 0)) =
    some (.uint .u 0, some (.cannotConvert "int" (.int .i))) := by rfl

example : AsF [] regEmpty 9 (.slice (.uint .u8)) (some (.str "aGVsbG8=")) =
    some (.slice (.uint .u8)
      [.uint .u8 104, .uint .u8 101, .uint .u8 108, .uint .u8 108, .uint .u8 111], none) := by rfl

/-- Type table for the self-referential-type claim: `A` is a struct with a
field `Next *A`, and `B` a struct of the same shape with a field
`Next *B`. -/
def envC1 : Env :=
  [("A", [⟨"Next", "", "", true, .ptr (.structT "A")⟩]),
   ("B", [⟨"Next", "", "", true, .ptr (.structT "B")⟩])]

example : newAssignFuncF envC1 regEmpty 31 [] (.structT "B") (.structT "A") = none := by rfl

example : newAssignFuncF envC1 regEmpty 30 [] (.structT "B") (.structT "A") = none := by rfl

/-- `Assign` (assign.go): the destination must be a non-nil pointer value;
the procedure for (pointer type, source type) is fetched through the cache
and executed with the pointer as destination slot; synthesis failures are
wrapped with both type names (`%w (assigning %T to %T)`, modelled by
`Err.assignCtx`). -/
def AssignF (env : Env) (reg : Registry) (fuel : ℕ) (dst src : Value) :
    Option (Value × Option Err) :=
  match dst with
  | .ptr t (some x) =>
      match getAssignFuncF env reg fuel [] (.ptr t) src.tyOf with
      | none => none
      | some (.error e, _) => some (.ptr t (some x), some (.assignCtx src.tyOf (.ptr t) e))
      | some (.ok p, c) =>
          match execF env reg fuel c p (.ptr t (some x)) src with
          | none => none
          | some (_, v, e) => some (v, e)
  | .ptr t none => some (.ptr t none, some .assignDestNotPointer)
  | _ => some (dst, some .assignDestNotPointer)

/-- Source struct for the validator-ordering claims: two exported fields,
no tags. -/
def envSrcS : List FieldDef :=
  [⟨"A", "", "", true, .str⟩, ⟨"B", "", "", true, .int .i⟩]

/-- Destination struct for the validator-ordering claims: field `A`
carries a `validator:"failA"` tag, field `B` none. -/
def envDstS : List FieldDef :=
  [⟨"A", "", "failA", true, .str⟩, ⟨"B", "", "", true, .int .i⟩]

/-- Type table for the validator-ordering claims. -/
def envC2 : Env := [("SrcS", envSrcS), ("DstS", envDstS)]

/-- Registry holding one validator, `failA`, whose behavior is the
arbitrary function `vf`. -/
def regC2 (vf : Value → Option Err) : Registry :=
  fun nm => if nm = "failA" then some ⟨fun _ v => vf v⟩ else none

example :
    AssignF envC2 (regC2 (fun _ => some (.custom "boom"))) 9
      (.ptr (.structT "DstS") (some (.structV "DstS" [.str "", .int .i 0])))
      (.structV "SrcS" [.str "x", .int .i 5]) =
    some (.ptr (.structT "DstS") (some (.structV "DstS" [.str "x", .int .i 5])),
      some (.onField "A" (.custom "boom"))) := by rfl

/-- Type table for the alias-precedence claim: the destination field `F`
carries the alias annotation `json:"alias"`; the source has a field whose
raw name `F` equals the destination's raw name and another field whose
resolved name is the alias. -/
def envC7 : Env :=
  [("DstA", [⟨"F", "alias", "", true, .str⟩]),
   ("SrcA", [⟨"F", "", "", true, .str⟩, ⟨"Ali", "alias", "", true, .str⟩])]

example :
    AssignF envC7 regEmpty 9
      (.ptr (.structT "DstA") (some (.structV "DstA" [.str ""])))
      (.structV "SrcA" [.str "rawval", .str "aliasval"]) =
    some (.ptr (.structT "DstA") (some (.structV "DstA" [.str "aliasval"])), none) := by rfl

example :
    AssignF [] regEmpty 9
      (.ptr (.mapT .str (.int .i))
        (some (.mapV .str (.int .i) [(.str "old", .int .i 1)])))
      (.mapV .str .str [(.str "k", .str "2")]) =
    some (.ptr (.mapT .str (.int .i))
      (some (.mapV .str (.int .i) [(.str "k", .int .i 2)])), none) := by rfl

lemma ratFloorPlusHalf_eq (q : ℚ) : ratFloorPlusHalf q = ⌊q + 1 / 2⌋ := by
  have hd : (0 : ℤ) < (q.den : ℤ) := Int.ofNat_pos.mpr q.pos
  have key : q + 1 / 2 = ((2 * q.num + (q.den : ℤ) : ℤ) : ℚ) / (((2 * q.den : ℕ) : ℕ) : ℚ) := by
    conv_lhs => rw [← Rat.num_div_den q]
    have hdq : ((q.den : ℚ)) ≠ 0 := by positivity
    push_cast
    field_simp
    ring
  rw [ratFloorPlusHalf, key, Rat.floor_intCast_div_natCast]
  push_cast
  rfl

lemma goRound_eq (q : ℚ) :
    goRound q = if 0 ≤ q then ⌊q + 1 / 2⌋ else -⌊-q + 1 / 2⌋ := by
  rw [goRound]
  by_cases h : 0 ≤ q <;> simp [h, ratFloorPlusHalf_eq]

lemma goRound_neg (q : ℚ) : goRound (-q) = -goRound q := by
  rcases lt_trichotomy q 0 with h | h | h
  · have h1 : ¬ 0 ≤ q := not_le.mpr h
    have h2 : 0 ≤ -q := by linarith
    simp [goRound_eq, h1, h2]
  · subst h
    norm_num [goRound_eq]
  · have h1 : 0 ≤ q := le_of_lt h
    by_cases h2 : 0 ≤ -q
    · have hq : q = 0 := by linarith
      subst hq
      norm_num [goRound_eq]
    · simp [goRound_eq, h1, h2, neg_neg]

/-- C6: float-to-integer conversion rounds half away from zero,
symmetrically in both sign directions.  Conjuncts: (1) `As[int](42.5)`
produces 43 and succeeds; (2) `As[int](-42.5)` produces -43 and succeeds;
(3) the rationals used really are ±42.5; (4) `math.Round` as used by
`AsInt` is `⌊q + 1/2⌋` for non-negative input and its mirror image for
negative input (round half away from zero); (5) the policy is symmetric:
negating the input negates the rounded value. -/
theorem claim_C6_round_half_away_from_zero :
    AsF [] regEmpty 9 (.int .i) (some (.float .f64 ratHalf425)) =
      some (.int .i 43, none) ∧
    AsF [] regEmpty 9 (.int .i) (some (.float .f64 ratHalfNeg425)) =
      some (.int .i (-43), none) ∧
    (ratHalf425 = 85 / 2 ∧ ratHalfNeg425 = -(85 / 2)) ∧
    (∀ q : ℚ, goRound q = if 0 ≤ q then ⌊q + 1 / 2⌋ else -⌊-q + 1 / 2⌋) ∧
    (∀ q : ℚ, goRound (-q) = -goRound q) := by
  refine ⟨rfl, rfl, ⟨?_, ?_⟩, goRound_eq, goRound_neg⟩
  · rw [show ratHalf425 = Rat.mk' 85 2 (by decide) (by decide) from rfl,
      Rat.mk'_eq_divInt, Rat.divInt_eq_div]
    norm_num
  · rw [show ratHalfNeg425 = Rat.mk' (-85) 2 (by decide) (by decide) from rfl,
      Rat.mk'_eq_divInt, Rat.divInt_eq_div]
    norm_num

/-- C8: `As[T]` on a nil/invalid source returns the invalid-source failure
together with the zero value of the destination type, for every destination
type, type table and registry (fuel is any amount sufficient to build the
zero value, which exists for every legal Go type). -/
theorem claim_C8_as_nil_source (env : Env) (reg : Registry) (t : Ty)
    (fuel : ℕ) (z : Value) (h : zeroValueF env fuel t = some z) :
    AsF env reg fuel t none = some (z, some .invalidSource) := by
  simp [AsF, h]

/-- Witness for C8 at a concrete destination type. -/
theorem claim_C8_as_nil_source_witness :
    zeroValueF [] 1 (.int .i) = some (.int .i 0) ∧
    AsF [] regEmpty 1 (.int .i) none = some (.int .i 0, some .invalidSource) :=
  ⟨rfl, claim_C8_as_nil_source [] regEmpty (.int .i) 1 (.int .i 0) rfl⟩

/-- C9: `AsUint` rejects the signed integer value 0 because its range test
is the strict `n > 0`, so assigning a signed 0 into an unsigned destination
reports a conversion failure (while 0 is representable in every unsigned
type).  Conjuncts: (1) `AsUint` on signed zero of any width returns
success=false; (2) `newAssignFunc` for an unsigned destination and signed
source picks the runtime `AsUint` closure; (3) the full `Assign` pipeline
into a `uint`-kind destination from a signed 0 leaves the destination
untouched and returns the conversion error. -/
theorem claim_C9_signed_zero_to_uint_fails (sw : IntW) (uw : UintW)
    (n : ℕ) (u0 : ℕ) :
    AsUint (.int sw 0) = (0, false) ∧
    makeAssignToUint (.uint uw) (.int sw) = .uintRuntime uw ∧
    AssignF [] regEmpty (n + 2) (.ptr (.uint uw) (some (.uint uw u0))) (.int sw 0) =
      some (.ptr (.uint uw) (some (.uint uw u0)), some (.cannotConvert "int" (.int sw))) := by
  refine ⟨rfl, rfl, ?_⟩
  cases sw <;> cases uw <;> rfl

/-- C10: a map-to-map procedure first replaces the destination with a
freshly allocated empty map, so no key/value pair of the prior destination
survives.  Conjuncts: (1) execution of the synthesized map procedure is
entirely independent of the destination map's prior entries (and of its
recorded key/value types); (2) with an empty source map the result is the
empty map whatever the destination held before; (3) the full `Assign`
pipeline on a concrete pre-populated destination discards the stale entry
`("old", 1)` even though the source does not mention that key. -/
theorem claim_C10_map_dst_replaced (env : Env) (reg : Registry) (n : ℕ)
    (cache : Cache) (dk dv : Ty) (kf vf : Plan) (k0 v0 k1 v1 : Ty)
    (es0 es1 : List (Value × Value)) (sk sv' : Ty) (ses : List (Value × Value))
    (zk zv : Value) (hzk : zeroValueF env n dk = some zk)
    (hzv : zeroValueF env n dv = some zv) :
    execF env reg (Nat.succ n) cache (.mapFromMap dk dv kf vf)
        (.mapV k0 v0 es0) (.mapV sk sv' ses) =
      execF env reg (Nat.succ n) cache (.mapFromMap dk dv kf vf)
        (.mapV k1 v1 es1) (.mapV sk sv' ses) ∧
    execF env reg (Nat.succ n) cache (.mapFromMap dk dv kf vf)
        (.mapV k0 v0 es0) (.mapV sk sv' []) =
      some (cache, .mapV dk dv [], none) ∧
    AssignF [] regEmpty 9
        (.ptr (.mapT .str (.int .i))
          (some (.mapV .str (.int .i) [(.str "old", .int .i 1)])))
        (.mapV .str .str [(.str "k", .str "2")]) =
      some (.ptr (.mapT .str (.int .i))
        (some (.mapV .str (.int .i) [(.str "k", .int .i 2)])), none) := by
  refine ⟨?_, ?_, rfl⟩
  · simp [execF]
  · simp [execF, hzk, hzv, execMapEntries]

/-- Witness for C10's zero-value hypotheses at concrete types. -/
theorem claim_C10_map_dst_replaced_witness :
    zeroValueF [] 1 .str = some (.str "") ∧
    zeroValueF [] 1 (.int .i) = some (.int .i 0) ∧
    (execF [] regEmpty 2 [] (.mapFromMap .str (.int .i) .simpleSet (.intRuntime .i))
        (.mapV .str (.int .i) [(.str "old", .int .i 1)]) (.mapV .str .str []) =
      some ([], .mapV .str (.int .i) [], none)) := by
  refine ⟨rfl, rfl, ?_⟩
  exact (claim_C10_map_dst_replaced [] regEmpty 1 [] .str (.int .i) .simpleSet
    (.intRuntime .i) .str (.int .i) .str (.int .i)
    [(.str "old", .int .i 1)] [] .str .str [] (.str "") (.int .i 0) rfl rfl).2.1

/-- C2 counterexample: destination struct `DstS` has field `A` (tagged
`validator:"failA"`) followed by field `B`; the registered `failA`
validator always fails.  The claim says the first validator failure aborts
the conversion *without attempting the remaining fields' conversions*, so
field `B` of the destination would have to keep its prior value 0.  The
code instead converts *all* bound fields first and only then runs the
validators: the returned destination has `B = 5` already written (and `A`
written too) alongside the error naming field `A` — refuting the claim at
this input. -/
theorem claim_C2_counterexample :
    AssignF envC2 (regC2 (fun _ => some (.custom "boom"))) 9
        (.ptr (.structT "DstS") (some (.structV "DstS" [.str "", .int .i 0])))
        (.structV "SrcS" [.str "x", .int .i 5]) =
      some (.ptr (.structT "DstS") (some (.structV "DstS" [.str "x", .int .i 5])),
        some (.onField "A" (.custom "boom"))) ∧
    (Value.int .i 5 ≠ Value.int .i 0) := by
  exact ⟨rfl, by simp⟩

/-- C2 as amended: during a struct-to-struct conversion *all* bound fields
are converted and written first, in declaration order; only after the last
field is written do the destination's validators run, in field declaration
order, and the first validator failure aborts the remaining validators and
is reported wrapped with the field name.  Stated for the two-field shape of
`envC2` over arbitrary source values, arbitrary prior destination values
and an arbitrary result `r` of the field-`A` validator: both fields always
end up written with the converted source values, and the returned error is
exactly the validator's result wrapped with `on field A`. -/
theorem claim_C2_amended (r : Option Err) (a b : String × ℤ) :
    AssignF envC2 (regC2 (fun _ => r)) 9
        (.ptr (.structT "DstS") (some (.structV "DstS" [.str b.1, .int .i b.2])))
        (.structV "SrcS" [.str a.1, .int .i a.2]) =
      some (.ptr (.structT "DstS") (some (.structV "DstS" [.str a.1, .int .i a.2])),
        r.map (.onField "A")) := by
  cases r <;> rfl

/-- C3 counterexample.  First conjunct: converting the integer value 1000
(a uint64, hence on the runtime-coercion route) into an `int8` destination
produces the two's-complement-truncated value −24 with **no** failure
reported (`As` returns a nil error), refuting the claim's "while reporting
failure".  Third conjunct: an integer source of *signed* kind (int64 value
5, which even fits the destination) takes the direct-copy closure of
`makeAssignToInt`, whose `dst.Set(src)` panics on the mismatched types
instead of preserving the value — refuting the claim's "preserves the
numeric value exactly" on that route. -/
theorem claim_C3_counterexample :
    AsF [] regEmpty 9 (.int .i8) (some (.uint .u64 1000)) =
      some (.int .i8 (-24), none) ∧
    ((-24 : ℤ) ≠ 1000) ∧
    AssignF [] regEmpty 9 (.ptr (.int .i8) (some (.int .i8 0))) (.int .i64 5) =
      some (.ptr (.int .i8) (some (.int .i8 0)),
        some (.panik "reflect.Set: wrong int type")) := by
  exact ⟨rfl, by decide, rfl⟩

/-- C3 as amended: for an integer source value reaching the
runtime-coercion route (source kind outside the signed-integer list — here
uint64, value below 2⁶³ so that `AsInt` itself succeeds) and any signed
destination width, the conversion writes the two's-complement truncation
of the value and reports success; the written value equals the source
value exactly iff the value fits the destination width.  (A source of
signed-integer kind with a different static type instead takes the
direct-copy closure, which panics — see the counterexample.) -/
theorem claim_C3_amended (w : IntW) (n : ℕ) (h : n < 2 ^ 63)
    (fuel : ℕ) (cache : Cache) (dst : Value) :
    makeAssignToInt (.int w) (.uint .u64) = .intRuntime w ∧
    execF [] regEmpty (Nat.succ fuel) cache (.intRuntime w) dst (.uint .u64 n) =
      some (cache, .int w (wrapSigned w (n : ℤ)), none) ∧
    (wrapSigned w (n : ℤ) = (n : ℤ) ↔ (n : ℤ) < 2 ^ (w.bits - 1)) := by
  have htb : n.testBit 63 = false := Nat.testBit_eq_false_of_lt h
  refine ⟨rfl, ?_, ?_⟩
  · simp [execF, AsInt, BaseType, htb]
  · cases w <;> simp [wrapSigned, IntW.bits] <;> omega

/-- Witness for C3's amended statement at the concrete overflowing input
1000 → int8 (wrapped value −24, success reported, and 1000 does not fit). -/
theorem claim_C3_amended_witness :
    1000 < 2 ^ 63 ∧
    (makeAssignToInt (.int .i8) (.uint .u64) = .intRuntime .i8 ∧
     execF [] regEmpty (Nat.succ 0) [] (.intRuntime .i8) (.int .i8 0) (.uint .u64 1000) =
       some ([], .int .i8 (wrapSigned .i8 (1000 : ℕ)), none) ∧
     (wrapSigned .i8 ((1000 : ℕ) : ℤ) = ((1000 : ℕ) : ℤ) ↔
       ((1000 : ℕ) : ℤ) < 2 ^ (IntW.i8.bits - 1))) :=
  ⟨by decide, claim_C3_amended .i8 1000 (by decide) 0 [] (.int .i8 0)⟩

/-- Type table for C4: destination struct `DstV` with two validator-tagged
fields in declaration order, `A` (tag `valA`) then `B` (tag `valB`). -/
def envC4 : Env :=
  [("SrcV", [⟨"A", "", "", true, .str⟩, ⟨"B", "", "", true, .str⟩]),
   ("DstV", [⟨"A", "", "valA", true, .str⟩, ⟨"B", "", "valB", true, .str⟩])]

/-- Registry for C4: `valA` always fails with `e`; `valB` is an arbitrary
opaque validator function. -/
def regC4 (e : Err) (v2 : String → Value → Option Err) : Registry :=
  fun nm =>
    if nm = "valA" then some ⟨fun _ _ => some e⟩
    else if nm = "valB" then some ⟨v2⟩
    else none

/-- C4: when the first (in declaration order) validator-tagged field's
validator fails, the second field's validator is never invoked and the
returned error names the first field.  Conjuncts: (1) at the
`structValidator.validate` level, with the first field's validator failing
with `e`, the result is `e` wrapped with the first field's name, *whatever
the second validator `v2` is* (the `v2`-independence is exactly "never
invoked"); (2) the result is literally unchanged when `v2` is replaced by
any `v2'`; (3) the full `Assign` pipeline over `envC4` (two tagged fields,
`valA` failing, `valB` an arbitrary opaque function) returns the error
naming field `A` — again for every `v2`, which therefore is never run. -/
theorem claim_C4_first_validator_short_circuits (i j : ℕ) (n1 n2 : String)
    (e : Err) (v2 v2' : Value → Option Err) (val : Value)
    (a b a0 b0 : String) (vb : String → Value → Option Err) :
    structValidator.validate [⟨i, n1, [fun _ => some e]⟩, ⟨j, n2, [v2]⟩] val =
      some (.onField n1 e) ∧
    structValidator.validate [⟨i, n1, [fun _ => some e]⟩, ⟨j, n2, [v2]⟩] val =
      structValidator.validate [⟨i, n1, [fun _ => some e]⟩, ⟨j, n2, [v2']⟩] val ∧
    AssignF envC4 (regC4 e vb) 9
        (.ptr (.structT "DstV") (some (.structV "DstV" [.str a0, .str b0])))
        (.structV "SrcV" [.str a, .str b]) =
      some (.ptr (.structT "DstV") (some (.structV "DstV" [.str a, .str b])),
        some (.onField "A" e)) := by
  exact ⟨rfl, rfl, rfl⟩

lemma decB64Char_encB64Char : ∀ s < 64, decB64Char (encB64Char s) = some s := by decide

lemma encB64Char_ne_pad : ∀ s < 64, encB64Char s ≠ '=' := by decide

lemma bytesOfList_map (bs : List ℕ) :
    bytesOfList (bs.map (fun b => .uint .u8 b)) = some bs := by
  induction bs with
  | nil => rfl
  | cons b rest ih => simp [bytesOfList, ih]

/-- Decoding inverts encoding, for every byte sequence. -/
lemma decodeB64Chars_encodeB64Chars :
    ∀ (bs : List ℕ), (∀ b ∈ bs, b < 256) →
      decodeB64Chars (encodeB64Chars bs) = some bs
  | [], _ => rfl
  | [b1], h => by
      have hb1 : b1 < 256 := h b1 (by simp)
      have d1 := decB64Char_encB64Char (b1 / 4) (by omega)
      have d2 := decB64Char_encB64Char (b1 % 4 * 16) (by omega)
      simp [encodeB64Chars, decodeB64Chars, d1, d2]
      omega
  | [b1, b2], h => by
      have hb1 : b1 < 256 := h b1 (by simp)
      have hb2 : b2 < 256 := h b2 (by simp)
      have d1 := decB64Char_encB64Char (b1 / 4) (by omega)
      have d2 := decB64Char_encB64Char (b1 % 4 * 16 + b2 / 16) (by omega)
      have d3 := decB64Char_encB64Char (b2 % 16 * 4) (by omega)
      have hne3 := encB64Char_ne_pad (b2 % 16 * 4) (by omega)
      simp [encodeB64Chars, decodeB64Chars, d1, d2, d3, hne3]
      omega
  | b1 :: b2 :: b3 :: rest, h => by
      have hb1 : b1 < 256 := h b1 (by simp)
      have hb2 : b2 < 256 := h b2 (by simp)
      have hb3 : b3 < 256 := h b3 (by simp)
      have ih := decodeB64Chars_encodeB64Chars rest
        (fun b hb => h b (by simp [hb]))
      have d1 := decB64Char_encB64Char (b1 / 4) (by omega)
      have d2 := decB64Char_encB64Char (b1 % 4 * 16 + b2 / 16) (by omega)
      have d3 := decB64Char_encB64Char (b2 % 16 * 4 + b3 / 64) (by omega)
      have d4 := decB64Char_encB64Char (b3 % 64) (by omega)
      have hne3 := encB64Char_ne_pad (b2 % 16 * 4 + b3 / 64) (by omega)
      have hne4 := encB64Char_ne_pad (b3 % 64) (by omega)
      simp [encodeB64Chars, decodeB64Chars, d1, d2, d3, d4, hne3, hne4, ih]
      refine ⟨by omega, by omega, by omega⟩

/-- C5: byte-sequence ↔ string conversion is standard base64 and round
trips to the identity.  Conjuncts: (1) for *every* byte sequence, the
synthesized byte-slice→string procedure produces exactly its base64
encoding, and the string→byte-slice procedure applied to that encoding
recovers exactly the original bytes; (2,3) the corresponding
`makeAssignTo…` dispatch picks those procedures for these type pairs;
(4) the encoding of the bytes of "hello" is the expected "aGVsbG8=";
(5,6) the full `As` pipeline on the "hello" example in both directions. -/
theorem claim_C5_base64_roundtrip :
    (∀ (bs : List ℕ), (∀ b ∈ bs, b < 256) →
      ∀ (fuel : ℕ) (cache : Cache) (dst : Value),
      execF [] regEmpty (Nat.succ fuel) cache .strFromBytes dst
          (.slice (.uint .u8) (bs.map (fun b => .uint .u8 b))) =
        some (cache, .str (encodeB64 bs), none) ∧
      execF [] regEmpty (Nat.succ fuel) cache .bytesFromString dst
          (.str (encodeB64 bs)) =
        some (cache, .slice (.uint .u8) (bs.map (fun b => .uint .u8 b)), none)) ∧
    makeAssignToString (.slice (.uint .u8)) = .strFromBytes ∧
    makeAssignToByteSlice (.slice (.uint .u8)) .str = .ok .bytesFromString ∧
    encodeB64 [104, 101, 108, 108, 111] = "aGVsbG8=" ∧
    AsF [] regEmpty 9 .str
        (some (.slice (.uint .u8)
          [.uint .u8 104, .uint .u8 101, .uint .u8 108, .uint .u8 108, .uint .u8 111])) =
      some (.str "aGVsbG8=", none) ∧
    AsF [] regEmpty 9 (.slice (.uint .u8)) (some (.str "aGVsbG8=")) =
      some (.slice (.uint .u8)
        [.uint .u8 104, .uint .u8 101, .uint .u8 108, .uint .u8 108, .uint .u8 111], none) := by
  refine ⟨?_, rfl, rfl, rfl, rfl, rfl⟩
  intro bs h fuel cache dst
  constructor
  · simp [execF, bytesOfList_map]
  · simp [execF, decodeB64, encodeB64, decodeB64Chars_encodeB64Chars bs h]

/-- Witness for C5's universally quantified round trip at the bytes of
"hello". -/
theorem claim_C5_base64_roundtrip_witness :
    (∀ b ∈ [104, 101, 108, 108, 111], b < 256) ∧
    (execF [] regEmpty (Nat.succ 0) [] .strFromBytes .nilV
        (.slice (.uint .u8) ([104, 101, 108, 108, 111].map (fun b => .uint .u8 b))) =
      some ([], .str (encodeB64 [104, 101, 108, 108, 111]), none) ∧
     execF [] regEmpty (Nat.succ 0) [] .bytesFromString .nilV
        (.str (encodeB64 [104, 101, 108, 108, 111])) =
      some ([], .slice (.uint .u8)
        ([104, 101, 108, 108, 111].map (fun b => .uint .u8 b)), none)) :=
  ⟨by decide, claim_C5_base64_roundtrip.1 [104, 101, 108, 108, 111] (by decide) 0 [] .nilV⟩

lemma assocFind?_assocStore {α : Type} (m : List (String × α)) (k k' : String) (v : α) :
    assocFind? (assocStore m k v) k' = if k' = k then some v else assocFind? m k' := by
  induction m with
  | nil => simp [assocStore, assocFind?, eq_comm]
  | cons e rest ih =>
      by_cases he : e.1 = k
      · simp [assocStore, he, assocFind?]
        by_cases hk : k' = k
        · simp [hk]
        · simp [hk, show ¬ k = k' from fun h => hk h.symm, he]
      · simp [assocStore, he, assocFind?]
        by_cases he' : e.1 = k'
        · simp [he', show ¬ k' = k from fun h => he (h ▸ he')]
        · simp [he', ih]

lemma fieldsInGo_sound (p : String → FieldDef × ℕ → Prop) :
    ∀ (l : List (ℕ × FieldDef)) (m : List (String × (FieldDef × ℕ))),
      (∀ a gp, assocFind? m a = some gp → p a gp) →
      (∀ fi ∈ l, fi.2.exported = true →
        ∀ a, resolveFieldName fi.2 = some a → p a (fi.2, fi.1)) →
      ∀ a gp, assocFind? (fieldsInGo l m) a = some gp → p a gp := by
  intro l
  induction l with
  | nil =>
      intro m hm _ a gp hf
      exact hm a gp hf
  | cons fi rest ih =>
      intro m hm hl a gp hf
      by_cases hexp : fi.2.exported
      · rw [fieldsInGo, if_neg (by simp [hexp])] at hf
        cases hres : resolveFieldName fi.2 with
        | none =>
            rw [hres] at hf
            exact ih m hm (fun x hx => hl x (by simp [hx])) a gp hf
        | some nm =>
            rw [hres] at hf
            refine ih (assocStore m nm (fi.2, fi.1)) ?_ (fun x hx => hl x (by simp [hx])) a gp hf
            intro a' gp' hf'
            rw [assocFind?_assocStore] at hf'
            by_cases ha : a' = nm
            · rw [if_pos ha] at hf'
              cases hf'
              exact ha ▸ hl fi (by simp) hexp nm hres
            · rw [if_neg ha] at hf'
              exact hm a' gp' hf'
      · rw [fieldsInGo, if_pos (by simp [hexp])] at hf
        exact ih m hm (fun x hx => hl x (by simp [hx])) a gp hf

/-- Every entry of the `fieldsIn` index is a source field, is exported,
and has the entry's key as its resolved name. -/
lemma fieldsInOf_sound (srcFields : List FieldDef) (a : String) (g : FieldDef) (j : ℕ)
    (h : assocFind? (fieldsInOf srcFields) a = some (g, j)) :
    (j, g) ∈ srcFields.enum ∧ g.exported = true ∧ resolveFieldName g = some a := by
  refine fieldsInGo_sound
    (fun a gp => (gp.2, gp.1) ∈ srcFields.enum ∧ gp.1.exported = true ∧
      resolveFieldName gp.1 = some a)
    srcFields.enum [] (by intro a' gp' hf'; simp [assocFind?] at hf')
    ?_ a (g, j) h
  intro fi hfi hexp a' hres
  exact ⟨hfi, hexp, hres⟩

lemma structFieldLoop_mono (newRec : SynthFn) (fIn : List (String × (FieldDef × ℕ))) :
    ∀ (l : List (ℕ × FieldDef)) (c : Cache) (b0 binds : List (ℕ × ℕ × Plan)) (c' : Cache),
      structFieldLoop newRec fIn l c b0 = some (.ok binds, c') →
      ∀ x ∈ b0, x ∈ binds := by
  intro l
  induction l with
  | nil =>
      intro c b0 binds c' h x hx
      rw [structFieldLoop] at h
      cases h
      exact hx
  | cons fi rest ih =>
      intro c b0 binds c' h x hx
      rw [structFieldLoop] at h
      by_cases hexp : fi.2.exported
      · simp only [hexp, Bool.not_true, Bool.false_eq_true, if_false] at h
        cases hres : resolveFieldName fi.2 with
        | none =>
            simp only [hres] at h
            exact ih _ _ _ _ h x hx
        | some nm =>
            simp only [hres] at h
            cases hfind : assocFind? fIn nm with
            | none =>
                simp only [hfind] at h
                exact ih _ _ _ _ h x hx
            | some gp =>
                obtain ⟨g, gi⟩ := gp
                simp only [hfind] at h
                cases hrec : newRec c fi.2.ty g.ty with
                | none => simp [hrec] at h
                | some res =>
                    obtain ⟨er, c2⟩ := res
                    cases er with
                    | error e => simp [hrec] at h
                    | ok sub =>
                        simp only [hrec] at h
                        exact ih _ _ _ _ h x (by simp [hx])
      · simp only [hexp, Bool.not_false, if_true] at h
        exact ih _ _ _ _ h x hx

lemma structFieldLoop_complete (newRec : SynthFn) (fIn : List (String × (FieldDef × ℕ))) :
    ∀ (l : List (ℕ × FieldDef)) (c : Cache) (b0 binds : List (ℕ × ℕ × Plan)) (c' : Cache)
      (i : ℕ) (f : FieldDef) (a : String) (g : FieldDef) (j : ℕ),
      structFieldLoop newRec fIn l c b0 = some (.ok binds, c') →
      (i, f) ∈ l → f.exported = true → resolveFieldName f = some a →
      assocFind? fIn a = some (g, j) →
      ∃ sub, (j, i, sub) ∈ binds := by
  intro l
  induction l with
  | nil =>
      intro c b0 binds c' i f a g j _ hmem
      simp at hmem
  | cons fi rest ih =>
      intro c b0 binds c' i f a g j h hmem hexp hres hfind
      rw [structFieldLoop] at h
      rcases List.mem_cons.mp hmem with hhead | htail
      · subst hhead
        simp only [hexp, Bool.not_true, Bool.false_eq_true, if_false, hres, hfind] at h
        cases hrec : newRec c f.ty g.ty with
        | none => simp [hrec] at h
        | some res =>
            obtain ⟨er, c2⟩ := res
            cases er with
            | error e => simp [hrec] at h
            | ok sub =>
                simp only [hrec] at h
                exact ⟨sub, structFieldLoop_mono newRec fIn rest c2 _ binds c' h
                  (j, i, sub) (by simp)⟩
      · by_cases hexp0 : fi.2.exported
        · simp only [hexp0, Bool.not_true, Bool.false_eq_true, if_false] at h
          cases hres0 : resolveFieldName fi.2 with
          | none =>
              simp only [hres0] at h
              exact ih _ _ _ _ i f a g j h htail hexp hres hfind
          | some nm =>
              simp only [hres0] at h
              cases hfind0 : assocFind? fIn nm with
              | none =>
                  simp only [hfind0] at h
                  exact ih _ _ _ _ i f a g j h htail hexp hres hfind
              | some gp =>
                  obtain ⟨g0, gi0⟩ := gp
                  simp only [hfind0] at h
                  cases hrec0 : newRec c fi.2.ty g0.ty with
                  | none => simp [hrec0] at h
                  | some res =>
                      obtain ⟨er, c2⟩ := res
                      cases er with
                      | error e => simp [hrec0] at h
                      | ok sub0 =>
                          simp only [hrec0] at h
                          exact ih _ _ _ _ i f a g j h htail hexp hres hfind
        · simp only [hexp0, Bool.not_false, if_true] at h
          exact ih _ _ _ _ i f a g j h htail hexp hres hfind

/-- C7: the alias annotation wins.  For every struct-to-struct binding
synthesis (the loop of `makeAssignStructToStruct`): whenever the binding
loop succeeds and a destination field `f` at index `i` is exported and
resolves to name `a` (for an aliased field, `a` is the first
comma-separated segment of its json tag, not its declared name), and the
source index contains an entry for `a` (field `g` at declaration index
`j`), then (1) a binding from source field `j` to destination field `i` is
produced, and (2) the bound source field `g` really is the source field at
index `j`, is exported, and has resolved name `a` — so matching is driven
entirely by the resolved name: a source field whose raw declared name
equals the destination's raw name is irrelevant when the alias differs.
The final conjunct exercises the full pipeline on `envC7`, where the
source has both a field with the destination's raw name `F` and a field
aliased `alias`: the destination receives the aliased field's value. -/
theorem claim_C7_alias_wins (newRec : SynthFn) (srcFields dstFields : List FieldDef)
    (cache : Cache) (binds : List (ℕ × ℕ × Plan)) (c' : Cache)
    (i : ℕ) (f : FieldDef) (a : String) (g : FieldDef) (j : ℕ)
    (hloop : structFieldLoop newRec (fieldsInOf srcFields) dstFields.enum cache [] =
      some (.ok binds, c'))
    (hf : (i, f) ∈ dstFields.enum) (hexp : f.exported = true)
    (hres : resolveFieldName f = some a)
    (hfind : assocFind? (fieldsInOf srcFields) a = some (g, j)) :
    ((∃ sub, (j, i, sub) ∈ binds) ∧
      (j, g) ∈ srcFields.enum ∧ g.exported = true ∧ resolveFieldName g = some a) ∧
    AssignF envC7 regEmpty 9
        (.ptr (.structT "DstA") (some (.structV "DstA" [.str ""])))
        (.structV "SrcA" [.str "rawval", .str "aliasval"]) =
      some (.ptr (.structT "DstA") (some (.structV "DstA" [.str "aliasval"])), none) := by
  refine ⟨⟨?_, fieldsInOf_sound srcFields a g j hfind⟩, rfl⟩
  exact structFieldLoop_complete newRec (fieldsInOf srcFields) dstFields.enum
    cache [] binds c' i f a g j hloop hf hexp hres hfind

/-- Witness for C7 on the concrete `envC7` shape: the destination field
`F` is aliased `alias`; the source's field 0 has raw name `F` and its
field 1 is aliased `alias`; the produced binding maps source index 1 to
destination index 0. -/
theorem claim_C7_alias_wins_witness :
    (structFieldLoop (fun c a b => newAssignFuncF envC7 regEmpty 5 c a b)
        (fieldsInOf (envC7.fieldsOf "SrcA")) (envC7.fieldsOf "DstA").enum [] [] =
      some (.ok [(1, 0, .simpleSet)], []) ∧
     (0, (⟨"F", "alias", "", true, .str⟩ : FieldDef)) ∈ (envC7.fieldsOf "DstA").enum ∧
     (⟨"F", "alias", "", true, .str⟩ : FieldDef).exported = true ∧
     resolveFieldName ⟨"F", "alias", "", true, .str⟩ = some "alias" ∧
     assocFind? (fieldsInOf (envC7.fieldsOf "SrcA")) "alias" =
       some (⟨"Ali", "alias", "", true, .str⟩, 1)) ∧
    ((∃ sub, (1, 0, sub) ∈ [((1 : ℕ), (0 : ℕ), Plan.simpleSet)]) ∧
      (1, (⟨"Ali", "alias", "", true, .str⟩ : FieldDef)) ∈ (envC7.fieldsOf "SrcA").enum ∧
      (⟨"Ali", "alias", "", true, .str⟩ : FieldDef).exported = true ∧
      resolveFieldName ⟨"Ali", "alias", "", true, .str⟩ = some "alias") := by
  refine ⟨⟨rfl, by simp [envC7, Env.fieldsOf], rfl, rfl, rfl⟩, ?_⟩
  exact (claim_C7_alias_wins (fun c a b => newAssignFuncF envC7 regEmpty 5 c a b)
    (envC7.fieldsOf "SrcA") (envC7.fieldsOf "DstA") [] [(1, 0, .simpleSet)] []
    0 ⟨"F", "alias", "", true, .str⟩ "alias" ⟨"Ali", "alias", "", true, .str⟩ 1
    rfl (by simp [envC7, Env.fieldsOf]) rfl rfl rfl).1

lemma newAssignFuncF_selfref_step (reg : Registry) (m : ℕ) (cache : Cache)
    (h : newAssignFuncF envC1 reg m cache (.structT "B") (.structT "A") = none) :
    newAssignFuncF envC1 reg (Nat.succ (Nat.succ (Nat.succ m))) cache
      (.structT "B") (.structT "A") = none := by
  simp only [envC1] at h
  simp [newAssignFuncF, tyAssignableTo, ptrCount, makeAssignStructToStruct,
    structFieldLoop, fieldsInOf, fieldsInGo, resolveFieldName, assocFind?, assocStore,
    Env.fieldsOf, envC1, newNewAndAssign, ptrReadAndAssign, h]

lemma newAssignFuncF_selfref_none (reg : Registry) :
    ∀ (n : ℕ) (cache : Cache),
      newAssignFuncF envC1 reg n cache (.structT "B") (.structT "A") = none := by
  intro n
  induction n using Nat.strong_induction_on with
  | _ n ih =>
    rcases n with _ | (_ | (_ | m))
    · intro cache; rfl
    · intro cache; rfl
    · intro cache; rfl
    · intro cache
      exact newAssignFuncF_selfref_step reg m cache (ih m (by omega) cache)

/-- C1: FALSIFIED BY THE CODE — synthesis for a pair of distinct
self-referential struct types never terminates, at any fuel, for every
registry, every cache state and every source value.  The placeholder
procedure *is* published by `getAssignFunc` on the cache miss, but the
recursive synthesis calls for struct fields (`makeAssignStructToStruct`),
for `newNewAndAssign` and for `ptrReadAndAssign` invoke `newAssignFunc`
directly, bypassing the cache, so the placeholder is never consulted:
synthesis for (B, A) needs (\*B, \*A), which needs (B, \*A), which needs
(B, A) again, forever.  Conjuncts: (1) `newAssignFunc` diverges on the
(B, A) pair; (2) so does `getAssignFunc` from an empty cache — its
placeholder notwithstanding; (3) so does the whole `Assign(&b, a)` call.
(`∀ fuel, … = none` in the fueled model states that the Go code recurses
without bound — in practice a stack overflow.) -/
theorem claim_C1_selfref_synthesis_diverges (reg : Registry) (n : ℕ) (cache : Cache)
    (b0 : Value) (fs : List Value) :
    newAssignFuncF envC1 reg n cache (.structT "B") (.structT "A") = none ∧
    getAssignFuncF envC1 reg n [] (.structT "B") (.structT "A") = none ∧
    AssignF envC1 reg n (.ptr (.structT "B") (some b0)) (.structV "A" fs) = none := by
  refine ⟨newAssignFuncF_selfref_none reg n cache, ?_, ?_⟩
  · simp [getAssignFuncF, getAssignFuncCore, Cache.find?, Cache.store,
      newAssignFuncF_selfref_none reg n]
  · cases n with
    | zero => rfl
    | succ m =>
        simp [AssignF, getAssignFuncF, getAssignFuncCore, Cache.find?, Cache.store,
          Value.tyOf, newAssignFuncF, tyAssignableTo, ptrCount, newNewAndAssign,
          newAssignFuncF_selfref_none reg m]

/-- Contrast for C1: converting a self-referential struct type to *itself*
does terminate, because `newAssignFunc` short-circuits on assignability
before ever recursing — the divergence is specific to a pair of distinct
self-referential types. -/
example :
    AssignF envC1 regEmpty 9
      (.ptr (.structT "A") (some (.structV "A" [.ptr (.structT "A") none])))
      (.structV "A" [.ptr (.structT "A")
        (some (.structV "A" [.ptr (.structT "A") none]))]) =
    some (.ptr (.structT "A") (some (.structV "A" [.ptr (.structT "A")
      (some (.structV "A" [.ptr (.structT "A") none]))])), none) := by rfl
